import Mathlib

/-!
Verification of the kinetics model subsystem of RMG-Py
(src/source/rmg/kinetics/model.py), shallowly embedded in Lean 4.

Python floats are modelled as real numbers; Python exceptions are modelled
with an explicit error type and Except-valued functions.  Functions that
can only fail at argument values that no statement here reaches (for
example float division by zero deep inside an arithmetic expression that
every theorem guards with positivity hypotheses) are modelled as total
real-valued functions; each such spot is noted in a comment.
-/

namespace RMG

/-- Python exception kinds raised by the kinetics module. -/
inductive Err where
  /-- a bare `raise Exception(...)` -/
  | exception
  /-- ValueError, including math domain errors from log and acos -/
  | valueError
  /-- IndexError from sequence indexing -/
  | indexError
  /-- TypeError, e.g. indexing a list with None -/
  | typeError
  /-- NameError from reading a never-assigned local variable -/
  | nameError
  /-- AttributeError from reading a never-assigned object attribute -/
  | attributeError
  deriving DecidableEq

/-- The gas constant constants.R in J/(mol K).  The module rmg/constants.py
is not part of the sources under verification; no theorem below depends on
the numeric value, only on it being a fixed real constant. -/
noncomputable def R : ℝ := 8.314472

/-- Python list indexing l[i]: raises IndexError out of bounds.
(Negative indices never occur in the embedded code.) -/
def pyIndex (l : List α) (i : ℕ) : Except Err α :=
  if h : i < l.length then .ok (l.get ⟨i, h⟩) else .error .indexError

/-- Python math.log: natural logarithm, ValueError (math domain error) on
nonpositive input. -/
noncomputable def pyLog (x : ℝ) : Except Err ℝ :=
  if 0 < x then .ok (Real.log x) else .error .valueError

/-- Python math.log10: base-10 logarithm, ValueError on nonpositive input. -/
noncomputable def pyLog10 (x : ℝ) : Except Err ℝ :=
  if 0 < x then .ok (Real.logb 10 x) else .error .valueError

/-- Python math.acos: ValueError (math domain error) outside [-1, 1]. -/
noncomputable def pyAcos (x : ℝ) : Except Err ℝ :=
  if -1 ≤ x ∧ x ≤ 1 then .ok (Real.arccos x) else .error .valueError

/-- Value of Python min over a nonempty list (junk 0 on the empty list,
which pyMin rejects before using this). -/
noncomputable def listMin : List ℝ → ℝ
  | [] => 0
  | x :: xs => xs.foldl min x

/-- Value of Python max over a nonempty list. -/
noncomputable def listMax : List ℝ → ℝ
  | [] => 0
  | x :: xs => xs.foldl max x

/-- Python min(list): ValueError on an empty sequence. -/
noncomputable def pyMin (l : List ℝ) : Except Err ℝ :=
  match l with
  | [] => .error .valueError
  | x :: xs => .ok (listMin (x :: xs))

/-- Python max(list): ValueError on an empty sequence. -/
noncomputable def pyMax (l : List ℝ) : Except Err ℝ :=
  match l with
  | [] => .error .valueError
  | x :: xs => .ok (listMax (x :: xs))

/-! ## KineticsModel (base class) -/

/-- State of a KineticsModel instance (the attributes set by
KineticsModel.__init__, model.py lines 75-82). -/
structure KineticsModel where
  Tmin : ℝ
  Tmax : ℝ
  Pmin : ℝ
  Pmax : ℝ
  rank : Int
  comment : String
  numReactants : Int

/-- KineticsModel.__init__(self, Tmin=0.0, Tmax=10000.0, Pmin=0.0,
Pmax=1.0e100, rank=0, comment=''): note that the body assigns
self.rank = 0 and self.comment = '' (lines 80-81), ignoring the rank and
comment arguments, and always sets numReactants = 0. -/
def KineticsModel.init (Tmin Tmax Pmin Pmax : ℝ) (_rank : Int)
    (_comment : String) : KineticsModel :=
  { Tmin := Tmin, Tmax := Tmax, Pmin := Pmin, Pmax := Pmax,
    rank := 0, comment := "", numReactants := 0 }

/-- The base state produced by calling KineticsModel.__init__ with all
arguments left at their defaults, as every derived __init__ except
ChebyshevModel's does. -/
noncomputable def kmDefault : KineticsModel :=
  KineticsModel.init 0 10000 0 ((10 : ℝ) ^ (100 : ℕ)) 0 ""

/-- KineticsModel.isTemperatureInRange (lines 84-89). -/
def KineticsModel.isTemperatureInRange (m : KineticsModel) (T : ℝ) : Prop :=
  m.Tmin ≤ T ∧ T ≤ m.Tmax

/-- KineticsModel.isPressureInRange (lines 91-96). -/
def KineticsModel.isPressureInRange (m : KineticsModel) (P : ℝ) : Prop :=
  m.Pmin ≤ P ∧ P ≤ m.Pmax

/-! ## ArrheniusModel -/

/-- State of an ArrheniusModel instance.  Trange models the dynamically
attached attribute read and written only by getReverse (line 162); it is
never assigned by __init__, which is modelled by the value none.  Its
payload is opaque to this module (it is only ever copied). -/
structure ArrheniusModel where
  base : KineticsModel
  A : ℝ
  Ea : ℝ
  n : ℝ
  Trange : Option (ℝ × ℝ)

/-- ArrheniusModel.__init__(self, A=0.0, Ea=0.0, n=0.0) (lines 119-125):
calls KineticsModel.__init__(self) with defaults, then sets A, Ea, n. -/
noncomputable def ArrheniusModel.init (A Ea n : ℝ) : ArrheniusModel :=
  { base := kmDefault, A := A, Ea := Ea, n := n, Trange := none }

/-- ArrheniusModel.getRateConstant(self, T, P=1.0e5) (lines 141-151):
returns A * T**n * exp(-Ea / R / T).  The pressure argument is unused.
Python would raise ZeroDivisionError at T = 0; the division is modelled
as total real division (every claim about this function assumes T > 0). -/
noncomputable def ArrheniusModel.getRateConstant (m : ArrheniusModel)
    (T : ℝ) : ℝ :=
  m.A * T ^ m.n * Real.exp (-m.Ea / R / T)

/-- ArrheniusModel.getReverse(self, dHrxn, Keq, T) (lines 153-166):
builds ArrheniusModel(A/Keq*exp(-dHrxn/R/T), Ea-dHrxn, n), then copies
self.Trange (AttributeError when the source instance has none), rank and
comment.  Tmin/Tmax/Pmin/Pmax of the result are the constructor
defaults. -/
noncomputable def ArrheniusModel.getReverse (m : ArrheniusModel)
    (dHrxn Keq T : ℝ) : Except Err ArrheniusModel :=
  match m.Trange with
  | none => .error .attributeError
  | some tr =>
    let k := ArrheniusModel.init (m.A / Keq * Real.exp (-dHrxn / R / T))
      (m.Ea - dHrxn) m.n
    .ok { k with Trange := some tr,
                 base := { k.base with rank := m.base.rank,
                                       comment := m.base.comment } }

/-! ## ArrheniusEPModel -/

/-- State of an ArrheniusEPModel instance (lines 304-310). -/
structure ArrheniusEPModel where
  base : KineticsModel
  A : ℝ
  E0 : ℝ
  n : ℝ
  alpha : ℝ

/-- ArrheniusEPModel.__init__(self, A=0.0, E0=0.0, n=0.0, alpha=0.0). -/
noncomputable def ArrheniusEPModel.init (A E0 n alpha : ℝ) :
    ArrheniusEPModel :=
  { base := kmDefault, A := A, E0 := E0, n := n, alpha := alpha }

/-- ArrheniusEPModel.getActivationEnergy(self, dHrxn) (lines 332-336):
E0 + alpha * dHrxn. -/
noncomputable def ArrheniusEPModel.getActivationEnergy
    (m : ArrheniusEPModel) (dHrxn : ℝ) : ℝ :=
  m.E0 + m.alpha * dHrxn

/-- Models the provenance note appended to the comment by getArrhenius
(line 352).  The printf-style numeric formatting of dHrxn into the string
is not modelled; no theorem below depends on the text. -/
def dHrxnNote (_dHrxn : ℝ) : String :=
  "Used dHrxn to evaluate Ea."

/-- ArrheniusEPModel.getArrhenius(self, dHrxn) (lines 338-353): builds
ArrheniusModel(A, getActivationEnergy(dHrxn), n) and copies
Tmin/Tmax/Pmin/Pmax/rank, appending a provenance note to the comment. -/
noncomputable def ArrheniusEPModel.getArrhenius (m : ArrheniusEPModel)
    (dHrxn : ℝ) : ArrheniusModel :=
  let Ea := m.getActivationEnergy dHrxn
  let k := ArrheniusModel.init m.A Ea m.n
  { k with base := { k.base with
      Tmin := m.base.Tmin, Tmax := m.base.Tmax,
      Pmin := m.base.Pmin, Pmax := m.base.Pmax,
      rank := m.base.rank,
      comment := m.base.comment ++ dHrxnNote dHrxn } }

/-- ArrheniusEPModel.getRateConstant(self, T, dHrxn) (lines 355-367):
A * T**n * exp(-Ea / R / T) with Ea = getActivationEnergy(dHrxn). -/
noncomputable def ArrheniusEPModel.getRateConstant (m : ArrheniusEPModel)
    (T dHrxn : ℝ) : ℝ :=
  m.A * T ^ m.n * Real.exp (-(m.getActivationEnergy dHrxn) / R / T)

/-! ## PDepArrheniusModel -/

/-- State of a PDepArrheniusModel instance (lines 448-451). -/
structure PDepArrheniusModel where
  base : KineticsModel
  pressures : List ℝ
  arrhenius : List ArrheniusModel

/-- PDepArrheniusModel.__init__(self, pressures=None, arrhenius=None). -/
noncomputable def PDepArrheniusModel.init (pressures : List ℝ)
    (arrhenius : List ArrheniusModel) : PDepArrheniusModel :=
  { base := kmDefault, pressures := pressures, arrhenius := arrhenius }

/-- The scan loop of PDepArrheniusModel.__getAdjacentExpressions
(lines 466-471):
for i in range(1, len(pressures)):
  if pressures[i] <= P: ilow = i; Plow = P
  if pressures[i] > P and ihigh is None: ihigh = i; Phigh = P
Note the source assigns Plow = P and Phigh = P (not pressures[i]).
Arguments carry the loop state (ilow, Plow, ihigh paired with Phigh). -/
noncomputable def pdepScan (P : ℝ) : List ℝ → ℕ → ℕ → ℝ →
    Option (ℕ × ℝ) → ℕ × ℝ × Option (ℕ × ℝ)
  | [], _, ilow, Plow, ihigh => (ilow, Plow, ihigh)
  | p :: rest, i, ilow, Plow, ihigh =>
    let (ilow', Plow') := if p ≤ P then (i, P) else (ilow, Plow)
    let ihigh' := if P < p ∧ ihigh = none then some (i, P) else ihigh
    pdepScan P rest (i + 1) ilow' Plow' ihigh'

/-- PDepArrheniusModel.__getAdjacentExpressions(self, P) (lines 453-473).
Raises for P outside [min(pressures), max(pressures)]; returns (P, P, a, a)
on an exact pressure match; otherwise runs the scan loop starting from
ilow = 0, Plow = pressures[0], ihigh = None and returns
(Plow, Phigh, arrhenius[ilow], arrhenius[ihigh]) — indexing arrhenius with
ihigh = None is a TypeError. -/
noncomputable def PDepArrheniusModel.getAdjacentExpressions
    (m : PDepArrheniusModel) (P : ℝ) :
    Except Err (ℝ × ℝ × ArrheniusModel × ArrheniusModel) := do
  let pmin ← pyMin m.pressures
  let pmax ← pyMax m.pressures
  if P < pmin ∨ pmax < P then
    .error .exception
  else if P ∈ m.pressures then do
    let arrh ← pyIndex m.arrhenius (m.pressures.indexOf P)
    .ok (P, P, arrh, arrh)
  else do
    let p0 ← pyIndex m.pressures 0
    match pdepScan P (m.pressures.drop 1) 1 0 p0 none with
    | (_, _, none) => .error .typeError
    | (ilow, Plow, some (ihigh, Phigh)) => do
      let alow ← pyIndex m.arrhenius ilow
      let ahigh ← pyIndex m.arrhenius ihigh
      .ok (Plow, Phigh, alow, ahigh)

/-- PDepArrheniusModel.getRateConstant(self, T, P) (lines 475-485):
exact-match short circuit when Plow == Phigh, otherwise
10**(log10(P/Plow)/log10(Phigh/Plow) * log(khigh/klow)).  math.log10 and
the divisions are modelled as total (their arguments are positive in every
reachable evaluation below). -/
noncomputable def PDepArrheniusModel.getRateConstant
    (m : PDepArrheniusModel) (T P : ℝ) : Except Err ℝ := do
  let (Plow, Phigh, alow, ahigh) ← m.getAdjacentExpressions P
  if Plow = Phigh then
    .ok (alow.getRateConstant T)
  else
    let klow := alow.getRateConstant T
    let khigh := ahigh.getRateConstant T
    .ok ((10 : ℝ) ^ (Real.logb 10 (P / Plow) / Real.logb 10 (Phigh / Plow) *
      Real.log (khigh / klow)))

/-- PDepArrheniusModel.getArrhenius(self, P) (lines 504-517): same bracket
search; on a collapsed bracket returns the stored model, otherwise builds
ArrheniusModel(A=10**(logPRatio*log(ahigh.A/alow.A)),
n=alow.n+(ahigh.n-alow.n)*logPRatio, Ea likewise). -/
noncomputable def PDepArrheniusModel.getArrhenius
    (m : PDepArrheniusModel) (P : ℝ) : Except Err ArrheniusModel := do
  let (Plow, Phigh, alow, ahigh) ← m.getAdjacentExpressions P
  if Plow = Phigh then
    .ok alow
  else
    let logPRatio := Real.logb 10 (P / Plow) / Real.logb 10 (Phigh / Plow)
    let A := (10 : ℝ) ^ (logPRatio * Real.log (ahigh.A / alow.A))
    let n := alow.n + (ahigh.n - alow.n) * logPRatio
    let Ea := alow.Ea + (ahigh.Ea - alow.Ea) * logPRatio
    .ok (ArrheniusModel.init A Ea n)

/-! ## ArrheniusModel.fitToData

The generic linear least-squares solver numpy.linalg.lstsq is an external
numerical primitive (not part of the sources under verification); the fit
procedures are therefore parameterized by a solver.  For the two-column
systems of ArrheniusModel.fitToData the solver maps a list of rows (each a
pair) and a right-hand side to the coefficient pair (x[0], x[1]). -/

/-- One pass of the matrix/vector construction loop of
ArrheniusModel.fitToData: for t, T in enumerate(Tlist) build the design
row f T and the right-hand-side entry g t T, propagating the first Python
exception raised in iteration order. -/
def buildSystem (f : ℝ → Except Err (ℝ × ℝ)) (g : ℕ → ℝ → Except Err ℝ) :
    ℕ → List ℝ → Except Err (List (ℝ × ℝ) × List ℝ)
  | _, [] => .ok ([], [])
  | t, T :: rest => do
    let row ← f T
    let bt ← g t T
    let (rows, bs) ← buildSystem f g (t + 1) rest
    .ok (row :: rows, bt :: bs)

/-- Step 1.5 of ArrheniusModel.fitToData (line 230):
K1 = [k / exp(-Ea0 / R / T) for k in K].  The variable T here is the
leftover loop variable of the preceding for loop, i.e. the last element of
Tlist; when Tlist is empty and K is not, Python raises NameError.  The
comprehension over an empty K never evaluates T and yields []. -/
noncomputable def residualK1 (K Tlist : List ℝ) (Ea0 : ℝ) :
    Except Err (List ℝ) :=
  match K, Tlist.getLast? with
  | [], _ => .ok []
  | _ :: _, none => .error .nameError
  | _ :: _, some TL =>
    .ok (K.map fun k => k / Real.exp (-Ea0 / R / TL))

/-- ArrheniusModel.fitToData(self, Tlist, K) (lines 207-261): the
three-pass linearized least-squares fit.  All assignments to self happen
at the very end (lines 259-261); any exception raised earlier leaves the
model unchanged, which the error value records by carrying the
pre-call state.  Python raises ZeroDivisionError at T = 0 in the design
rows -1/R/T; those divisions are modelled as total (the b-entry
construction of step 2 still fails at T <= 0 via math.log(T)). -/
noncomputable def ArrheniusModel.fitToData
    (lstsq : List (ℝ × ℝ) → List ℝ → ℝ × ℝ) (m : ArrheniusModel)
    (Tlist K : List ℝ) : Except (Err × ArrheniusModel) ArrheniusModel :=
  let fit : Except Err (ℝ × ℝ × ℝ) := do
    -- Step 1: A[t] = (1, -1/R/T), b[t] = log(K[t])
    let (a1, b1) ← buildSystem (fun T => .ok (1, -1 / R / T))
      (fun t _ => do let k ← pyIndex K t; pyLog k) 0 Tlist
    let x1 := lstsq a1 b1
    let _A0 := Real.exp x1.1
    let Ea0 := x1.2
    let K1 ← residualK1 K Tlist Ea0
    -- Step 2: A[t] = (1, log(T)), b[t] = log(K1[t])
    let (a2, b2) ← buildSystem (fun T => do let lT ← pyLog T; .ok (1, lT))
      (fun t _ => do let k ← pyIndex K1 t; pyLog k) 0 Tlist
    let x2 := lstsq a2 b2
    let _A1 := Real.exp x2.1
    let n1 := x2.2
    -- Step 3: A[t] = (1, -1/R/T), b[t] = log(K[t]) - n1*log(T)
    let (a3, b3) ← buildSystem (fun T => .ok (1, -1 / R / T))
      (fun t T => do
        let k ← pyIndex K t
        let lk ← pyLog k
        let lT ← pyLog T
        .ok (lk - n1 * lT)) 0 Tlist
    let x3 := lstsq a3 b3
    .ok (Real.exp x3.1, n1, x3.2)
  match fit with
  | .ok (A', n', Ea') => .ok { m with A := A', n := n', Ea := Ea' }
  | .error e => .error (e, m)

/-- The per-pressure loop of PDepArrheniusModel.fitToData (lines 499-502):
for p, P in enumerate(Plist): fit a fresh ArrheniusModel() to column p of
K and append it.  The accumulator acc is the partially mutated self (an
exception propagates with the state mutated so far). -/
noncomputable def pdepFitLoop (lstsq : List (ℝ × ℝ) → List ℝ → ℝ × ℝ)
    (Tlist : List ℝ) (K : List (List ℝ)) :
    ℕ → List ℝ → PDepArrheniusModel →
    Except (Err × PDepArrheniusModel) PDepArrheniusModel
  | _, [], acc => .ok acc
  | p, _ :: rest, acc =>
    -- K[:,p], the p-th column of K; IndexError when a row is too short
    match K.mapM (fun row => pyIndex row p) with
    | .error e => .error (e, acc)
    | .ok col =>
      match ArrheniusModel.fitToData lstsq (ArrheniusModel.init 0 0 0)
          Tlist col with
      | .error (e, _) => .error (e, acc)
      | .ok arrh =>
        pdepFitLoop lstsq Tlist K (p + 1) rest
          { acc with arrhenius := acc.arrhenius ++ [arrh] }

/-- PDepArrheniusModel.fitToData(self, Tlist, Plist, K) (lines 487-502):
first assigns self.arrhenius = [] and self.pressures = Plist[:] (lines
494-496), then fits one ArrheniusModel per pressure.  Failures during the
fitting loop therefore leave the already-overwritten pressures list. -/
noncomputable def PDepArrheniusModel.fitToData
    (lstsq : List (ℝ × ℝ) → List ℝ → ℝ × ℝ) (m : PDepArrheniusModel)
    (Tlist Plist : List ℝ) (K : List (List ℝ)) :
    Except (Err × PDepArrheniusModel) PDepArrheniusModel :=
  pdepFitLoop lstsq Tlist K 0 Plist
    { m with arrhenius := [], pressures := Plist }

/-! ## ChebyshevModel -/

/-- State of a ChebyshevModel instance (lines 566-570).  The coefficient
matrix is modelled as a total function of the two indices (numpy array
indexing within the degreeT x degreeP shape). -/
structure ChebyshevModel where
  base : KineticsModel
  coeffs : ℕ → ℕ → ℝ
  degreeT : ℕ
  degreeP : ℕ

/-- ChebyshevModel.__init__(self, Tmin=0.0, Tmax=0.0, Pmin=0.0, Pmax=0.0,
coeffs=None): forwards the bounds to KineticsModel.__init__ and sets
degreeT = degreeP = 0. -/
def ChebyshevModel.init (Tmin Tmax Pmin Pmax : ℝ) (coeffs : ℕ → ℕ → ℝ) :
    ChebyshevModel :=
  { base := KineticsModel.init Tmin Tmax Pmin Pmax 0 "",
    coeffs := coeffs, degreeT := 0, degreeP := 0 }

/-- ChebyshevModel.__chebyshev(self, n, x) (lines 572-573):
math.cos(n * math.acos(x)); math.acos raises a math domain error
(ValueError) when x is outside [-1, 1]. -/
noncomputable def chebyshevT (n : ℕ) (x : ℝ) : Except Err ℝ := do
  let a ← pyAcos x
  .ok (Real.cos (n * a))

/-- ChebyshevModel.__getReducedTemperature(self, T) (lines 575-576).
Total model of the float arithmetic (Python raises ZeroDivisionError at
T = 0 or Tmin = Tmax; every use below is guarded by 0 < Tmin < Tmax and
0 < T). -/
noncomputable def ChebyshevModel.getReducedTemperature
    (m : ChebyshevModel) (T : ℝ) : ℝ :=
  (2 / T - 1 / m.base.Tmin - 1 / m.base.Tmax) /
    (1 / m.base.Tmax - 1 / m.base.Tmin)

/-- ChebyshevModel.__getReducedPressure(self, P) (lines 578-579).
Total model (Python raises a math domain error when P, Pmin or Pmax is
nonpositive and ZeroDivisionError when Pmin = Pmax; every use below is
guarded by 0 < Pmin < Pmax and 0 < P). -/
noncomputable def ChebyshevModel.getReducedPressure
    (m : ChebyshevModel) (P : ℝ) : ℝ :=
  (2 * Real.log P - Real.log m.base.Pmin - Real.log m.base.Pmax) /
    (Real.log m.base.Pmax - Real.log m.base.Pmin)

/-- The accumulation loop of ChebyshevModel.getRateConstant (lines
590-593): k += coeffs[t,p] * chebyshev(t, Tred) * chebyshev(p, Pred)
over t in range(degreeT), p in range(degreeP), in iteration order. -/
noncomputable def chebAccum (m : ChebyshevModel) (Tred Pred : ℝ) :
    Except Err ℝ :=
  (List.range m.degreeT).foldlM (fun k t =>
    (List.range m.degreeP).foldlM (fun k p => do
      let ct ← chebyshevT t Tred
      let cp ← chebyshevT p Pred
      .ok (k + m.coeffs t p * ct * cp)) k) 0

/-- ChebyshevModel.getRateConstant(self, T, P) (lines 581-594):
10**k with k the double Chebyshev sum at the reduced coordinates. -/
noncomputable def ChebyshevModel.getRateConstant (m : ChebyshevModel)
    (T P : ℝ) : Except Err ℝ := do
  let Tred := m.getReducedTemperature T
  let Pred := m.getReducedPressure P
  let k ← chebAccum m Tred Pred
  .ok ((10 : ℝ) ^ k)

/-- One design row of ChebyshevModel.fitToData (line 626): the
degreeT*degreeP products chebyshev(t2, T) * chebyshev(p2, P), t2 outer
(iteration order; numpy stores entry (t2, p2) at column p2*degreeT+t2, a
fixed permutation that is irrelevant to the abstract solver). -/
noncomputable def chebRow (dT dP : ℕ) (x y : ℝ) : Except Err (List ℝ) := do
  let parts ← (List.range dT).mapM (fun t2 =>
    (List.range dP).mapM (fun p2 => do
      let ct ← chebyshevT t2 x
      let cp ← chebyshevT p2 y
      .ok (ct * cp)))
  .ok parts.flatten

/-- Inner loop of the design-matrix construction of
ChebyshevModel.fitToData (lines 622-627), at fixed reduced temperature x
(row index t1): for p1, y in enumerate(Pred) build the cell's design row
and b entry log10(K[t1,p1]). -/
noncomputable def chebCells (dT dP : ℕ) (K : List (List ℝ)) (t1 : ℕ)
    (x : ℝ) : ℕ → List ℝ → Except Err (List (List ℝ × ℝ))
  | _, [] => .ok []
  | p1, y :: rest => do
    let r ← chebRow dT dP x y
    let row ← pyIndex K t1
    let kv ← pyIndex row p1
    let bv ← pyLog10 kv
    let tail ← chebCells dT dP K t1 x (p1 + 1) rest
    .ok ((r, bv) :: tail)

/-- Outer loop of the design-matrix construction of
ChebyshevModel.fitToData: for t1, x in enumerate(Tred). -/
noncomputable def chebGrid (dT dP : ℕ) (K : List (List ℝ))
    (Pred : List ℝ) : ℕ → List ℝ → Except Err (List (List (List ℝ × ℝ)))
  | _, [] => .ok []
  | t1, x :: rest => do
    let cells ← chebCells dT dP K t1 x 0 Pred
    let tail ← chebGrid dT dP K Pred (t1 + 1) rest
    .ok (cells :: tail)

/-- ChebyshevModel.fitToData(self, Tlist, Plist, K, degreeT, degreeP)
(lines 597-636).  Assignment order of the source: degreeT/degreeP first
(line 609), then Tmin/Tmax = min/max(Tlist) and Pmin/Pmax = min/max(Plist)
(lines 612-613, ValueError on an empty list with the earlier assignments
already made), then the design matrix and right-hand side are built in
iteration order (cells at row index p1*nT+t1, a fixed permutation of the
t1-major cell list passed to the abstract solver), one joint least-squares
solve, and finally coeffs[t2,p2] = x[p2*degreeT+t2].  The solver is
modelled as returning the full coefficient vector. -/
noncomputable def ChebyshevModel.fitToData
    (lstsq : List (List ℝ) → List ℝ → List ℝ) (m : ChebyshevModel)
    (Tlist Plist : List ℝ) (K : List (List ℝ)) (degreeT degreeP : ℕ) :
    Except (Err × ChebyshevModel) ChebyshevModel :=
  let m1 := { m with degreeT := degreeT, degreeP := degreeP }
  match pyMin Tlist, pyMax Tlist with
  | .error e, _ | _, .error e => .error (e, m1)
  | .ok tmin, .ok tmax =>
  let m2 := { m1 with base := { m1.base with Tmin := tmin, Tmax := tmax } }
  match pyMin Plist, pyMax Plist with
  | .error e, _ | _, .error e => .error (e, m2)
  | .ok pmin, .ok pmax =>
  let m3 := { m2 with base := { m2.base with Pmin := pmin, Pmax := pmax } }
  let Tred := Tlist.map m3.getReducedTemperature
  let Pred := Plist.map m3.getReducedPressure
  match chebGrid degreeT degreeP K Pred 0 Tred with
  | .error e => .error (e, m3)
  | .ok grid =>
    let cells := grid.flatten
    let x := lstsq (cells.map Prod.fst) (cells.map Prod.snd)
    .ok { m3 with coeffs := fun t2 p2 => x.getD (p2 * degreeT + t2) 0 }

/-! ## Helper lemmas about Python min/max over lists -/

lemma foldl_min_mem (x : ℝ) (xs : List ℝ) : xs.foldl min x ∈ x :: xs := by
  induction xs generalizing x with
  | nil => simp
  | cons y ys ih =>
    have h := ih (min x y)
    rcases List.mem_cons.1 h with h0 | h0
    · rcases min_choice x y with hc | hc <;> rw [List.foldl_cons, h0, hc] <;>
        simp
    · simp [List.foldl_cons, List.mem_cons.2 (Or.inr (List.mem_cons.2 (Or.inr h0)))]

lemma foldl_min_le (x : ℝ) (xs : List ℝ) :
    ∀ a ∈ x :: xs, xs.foldl min x ≤ a := by
  induction xs generalizing x with
  | nil => intro a ha; simp at ha; simp [ha]
  | cons y ys ih =>
    intro a ha
    rcases List.mem_cons.1 ha with rfl | ha'
    · calc ys.foldl min (min a y) ≤ min a y :=
          ih (min a y) (min a y) (List.mem_cons_self _ _)
        _ ≤ a := min_le_left _ _
    · rcases List.mem_cons.1 ha' with rfl | ha''
      · calc ys.foldl min (min x a) ≤ min x a :=
            ih (min x a) (min x a) (List.mem_cons_self _ _)
          _ ≤ a := min_le_right _ _
      · exact ih (min x y) a (List.mem_cons.2 (Or.inr ha''))

lemma foldl_max_mem (x : ℝ) (xs : List ℝ) : xs.foldl max x ∈ x :: xs := by
  induction xs generalizing x with
  | nil => simp
  | cons y ys ih =>
    have h := ih (max x y)
    rcases List.mem_cons.1 h with h0 | h0
    · rcases max_choice x y with hc | hc <;> rw [List.foldl_cons, h0, hc] <;>
        simp
    · simp [List.foldl_cons, List.mem_cons.2 (Or.inr (List.mem_cons.2 (Or.inr h0)))]

lemma le_foldl_max (x : ℝ) (xs : List ℝ) :
    ∀ a ∈ x :: xs, a ≤ xs.foldl max x := by
  induction xs generalizing x with
  | nil => intro a ha; simp at ha; simp [ha]
  | cons y ys ih =>
    intro a ha
    rcases List.mem_cons.1 ha with rfl | ha'
    · calc a ≤ max a y := le_max_left _ _
        _ ≤ ys.foldl max (max a y) :=
          ih (max a y) (max a y) (List.mem_cons_self _ _)
    · rcases List.mem_cons.1 ha' with rfl | ha''
      · calc a ≤ max x a := le_max_right _ _
          _ ≤ ys.foldl max (max x a) :=
            ih (max x a) (max x a) (List.mem_cons_self _ _)
      · exact ih (max x y) a (List.mem_cons.2 (Or.inr ha''))

lemma listMin_mem {l : List ℝ} (h : l ≠ []) : listMin l ∈ l := by
  cases l with
  | nil => exact absurd rfl h
  | cons x xs => exact foldl_min_mem x xs

lemma listMin_le {l : List ℝ} {a : ℝ} (ha : a ∈ l) : listMin l ≤ a := by
  cases l with
  | nil => simp at ha
  | cons x xs => exact foldl_min_le x xs a ha

lemma listMax_mem {l : List ℝ} (h : l ≠ []) : listMax l ∈ l := by
  cases l with
  | nil => exact absurd rfl h
  | cons x xs => exact foldl_max_mem x xs

lemma le_listMax {l : List ℝ} {a : ℝ} (ha : a ∈ l) : a ≤ listMax l := by
  cases l with
  | nil => simp at ha
  | cons x xs => exact le_foldl_max x xs a ha

lemma pyMin_eq {l : List ℝ} (h : l ≠ []) : pyMin l = .ok (listMin l) := by
  cases l with
  | nil => exact absurd rfl h
  | cons x xs => rfl

lemma pyMax_eq {l : List ℝ} (h : l ≠ []) : pyMax l = .ok (listMax l) := by
  cases l with
  | nil => exact absurd rfl h
  | cons x xs => rfl

/-! ## C10 -/

/-- C10: every construction of a KineticsModel — directly or through the
derived constructors, all of which call the base constructor — yields
rank = 0, comment = "" and numReactants = 0, regardless of the rank and
comment arguments passed: KineticsModel.__init__ ignores those two
parameters. -/
theorem C10_constructor_ignores_rank_comment :
    (∀ (tmi tma pmi pma : ℝ) (r : Int) (c : String),
      (KineticsModel.init tmi tma pmi pma r c).rank = 0 ∧
      (KineticsModel.init tmi tma pmi pma r c).comment = "" ∧
      (KineticsModel.init tmi tma pmi pma r c).numReactants = 0) ∧
    (∀ A Ea n : ℝ,
      (ArrheniusModel.init A Ea n).base.rank = 0 ∧
      (ArrheniusModel.init A Ea n).base.comment = "" ∧
      (ArrheniusModel.init A Ea n).base.numReactants = 0) ∧
    (∀ A E0 n alpha : ℝ,
      (ArrheniusEPModel.init A E0 n alpha).base.rank = 0 ∧
      (ArrheniusEPModel.init A E0 n alpha).base.comment = "" ∧
      (ArrheniusEPModel.init A E0 n alpha).base.numReactants = 0) ∧
    (∀ (ps : List ℝ) (as_ : List ArrheniusModel),
      (PDepArrheniusModel.init ps as_).base.rank = 0 ∧
      (PDepArrheniusModel.init ps as_).base.comment = "" ∧
      (PDepArrheniusModel.init ps as_).base.numReactants = 0) ∧
    (∀ (tmi tma pmi pma : ℝ) (cf : ℕ → ℕ → ℝ),
      (ChebyshevModel.init tmi tma pmi pma cf).base.rank = 0 ∧
      (ChebyshevModel.init tmi tma pmi pma cf).base.comment = "" ∧
      (ChebyshevModel.init tmi tma pmi pma cf).base.numReactants = 0) := by
  refine ⟨fun _ _ _ _ _ _ => ⟨rfl, rfl, rfl⟩, fun _ _ _ => ⟨rfl, rfl, rfl⟩,
    fun _ _ _ _ => ⟨rfl, rfl, rfl⟩, fun _ _ => ⟨rfl, rfl, rfl⟩,
    fun _ _ _ _ _ => ⟨rfl, rfl, rfl⟩⟩

/-! ## C7 -/

/-- C7: for every ArrheniusEPModel, temperature T > 0 and reaction
enthalpy dHrxn, the direct evaluation getRateConstant(T, dHrxn) equals
the evaluation through the intermediate model,
getArrhenius(dHrxn).getRateConstant(T). -/
theorem C7_EP_direct_equals_composed (m : ArrheniusEPModel)
    (T dHrxn : ℝ) (hT : 0 < T) :
    m.getRateConstant T dHrxn =
      (m.getArrhenius dHrxn).getRateConstant T := rfl

/-- Witness for C7 at a concrete model and input. -/
theorem C7_witness :
    (0 : ℝ) < 2 ∧
    (ArrheniusEPModel.init 5 7 3 11).getRateConstant 2 13 =
      ((ArrheniusEPModel.init 5 7 3 11).getArrhenius 13).getRateConstant 2 :=
  ⟨by norm_num,
   C7_EP_direct_equals_composed (ArrheniusEPModel.init 5 7 3 11) 2 13
     (by norm_num)⟩

/-! ## C3 -/

/-- A forward ArrheniusModel whose fields were populated after
construction (as the database loaders of the wider system do): nontrivial
validity range, rank, comment, and a Trange attribute attached. -/
noncomputable def mC3 : ArrheniusModel :=
  { base := { Tmin := 300, Tmax := 2000, Pmin := 0,
              Pmax := (10 : ℝ) ^ (100 : ℕ), rank := 3,
              comment := "literature", numReactants := 2 },
    A := 2, Ea := 7, n := 5, Trange := some (300, 2000) }

/-- The model actually produced by mC3.getReverse 0 1 1. -/
noncomputable def mC3rev : ArrheniusModel :=
  { base := { Tmin := 0, Tmax := 10000, Pmin := 0,
              Pmax := (10 : ℝ) ^ (100 : ℕ), rank := 3,
              comment := "literature", numReactants := 0 },
    A := 2, Ea := 7, n := 5, Trange := some (300, 2000) }

lemma mC3_getReverse_eval : mC3.getReverse 0 1 1 = .ok mC3rev := by
  show Except.ok _ = _
  simp only [mC3rev, ArrheniusModel.init, kmDefault, KineticsModel.init,
    Except.ok.injEq, mC3]
  norm_num

/-- Counterexample to C3: getReverse does not carry the source model's
Tmin and Tmax into the result: the reverse of mC3 (Tmin = 300) has
Tmin = 0 (the constructor default).  Only the separate Trange attribute,
rank and comment are copied. -/
theorem C3_counterexample :
    mC3.getReverse 0 1 1 = .ok mC3rev ∧
    mC3rev.base.Tmin ≠ mC3.base.Tmin ∧
    mC3rev.base.Tmax ≠ mC3.base.Tmax :=
  ⟨mC3_getReverse_eval, by simp [mC3, mC3rev], by simp [mC3, mC3rev]⟩

/-- C3 (amended): getReverse(dHrxn, Keq, T) returns a model with
preexponential A/Keq*exp(-dHrxn/(R*T)), activation energy Ea - dHrxn,
unchanged n, and the source's rank and comment; it does NOT carry the
source's Tmin/Tmax — the result keeps the constructor defaults, and only
the separate Trange attribute is copied — and it fails with an
AttributeError when the source model has no Trange attribute (as any
model freshly built by __init__). -/
theorem C3_getReverse_amended :
    (∀ (m : ArrheniusModel) (dHrxn Keq T : ℝ) (r : ℝ × ℝ),
      m.Trange = some r →
      m.getReverse dHrxn Keq T = .ok
        { base := { kmDefault with
              rank := m.base.rank,
              comment := m.base.comment },
          A := m.A / Keq * Real.exp (-dHrxn / R / T),
          Ea := m.Ea - dHrxn, n := m.n, Trange := some r }) ∧
    (∀ (m : ArrheniusModel) (dHrxn Keq T : ℝ),
      m.Trange = none →
      m.getReverse dHrxn Keq T = .error .attributeError) := by
  constructor
  · intro m dHrxn Keq T r hr
    simp [ArrheniusModel.getReverse, hr, ArrheniusModel.init]
  · intro m dHrxn Keq T hr
    simp [ArrheniusModel.getReverse, hr]

/-- Witness for C3's amended theorem at the concrete model mC3. -/
theorem C3_witness :
    mC3.Trange = some (300, 2000) ∧
    mC3.getReverse 0 1 1 = .ok
      { base := { kmDefault with
            rank := mC3.base.rank,
            comment := mC3.base.comment },
        A := mC3.A / 1 * Real.exp (-0 / R / 1),
        Ea := mC3.Ea - 0, n := mC3.n, Trange := some (300, 2000) } :=
  ⟨rfl, C3_getReverse_amended.1 mC3 0 1 1 (300, 2000) rfl⟩

/-! ## C5 and C6: bracket search behaviour -/

lemma getAdjacentExpressions_out_of_range (m : PDepArrheniusModel) (P : ℝ)
    (hne : m.pressures ≠ [])
    (hout : P < listMin m.pressures ∨ listMax m.pressures < P) :
    m.getAdjacentExpressions P = .error .exception := by
  unfold PDepArrheniusModel.getAdjacentExpressions
  rw [pyMin_eq hne, pyMax_eq hne]
  simp only [bind, Except.bind]
  rw [if_pos hout]

lemma getAdjacentExpressions_exact (m : PDepArrheniusModel) (P : ℝ)
    (hmem : P ∈ m.pressures)
    (hlen : m.pressures.length = m.arrhenius.length) :
    ∃ h : m.pressures.indexOf P < m.arrhenius.length,
      m.getAdjacentExpressions P =
        .ok (P, P, m.arrhenius.get ⟨m.pressures.indexOf P, h⟩,
          m.arrhenius.get ⟨m.pressures.indexOf P, h⟩) := by
  have hne : m.pressures ≠ [] := List.ne_nil_of_mem hmem
  have hidx : m.pressures.indexOf P < m.arrhenius.length := by
    rw [← hlen]; exact List.indexOf_lt_length.2 hmem
  refine ⟨hidx, ?_⟩
  have hnotout : ¬(P < listMin m.pressures ∨ listMax m.pressures < P) := by
    push_neg
    exact ⟨listMin_le hmem, le_listMax hmem⟩
  unfold PDepArrheniusModel.getAdjacentExpressions
  rw [pyMin_eq hne, pyMax_eq hne]
  simp only [bind, Except.bind]
  rw [if_neg hnotout, if_pos hmem]
  simp [pyIndex, hidx]

/-- C5: for a nonempty stored pressure list and a pressure P strictly
below the minimum or strictly above the maximum stored pressure, both
getRateConstant(T, P) (for every T) and getArrhenius(P) raise instead of
extrapolating. -/
theorem C5_out_of_range_raises (m : PDepArrheniusModel) (T P : ℝ)
    (hne : m.pressures ≠ [])
    (hout : P < listMin m.pressures ∨ listMax m.pressures < P) :
    m.getRateConstant T P = .error .exception ∧
    m.getArrhenius P = .error .exception := by
  constructor
  · unfold PDepArrheniusModel.getRateConstant
    rw [getAdjacentExpressions_out_of_range m P hne hout]
    rfl
  · unfold PDepArrheniusModel.getArrhenius
    rw [getAdjacentExpressions_out_of_range m P hne hout]
    rfl

/-- Witness for C5: a model storing the single pressure 1, queried at the
out-of-range pressure 0. -/
theorem C5_witness :
    (PDepArrheniusModel.init [1] []).pressures ≠ [] ∧
    ((0 : ℝ) < listMin (PDepArrheniusModel.init [1] []).pressures ∨
      listMax (PDepArrheniusModel.init [1] []).pressures < 0) ∧
    ((PDepArrheniusModel.init [1] []).getRateConstant 300 0 =
        .error .exception ∧
      (PDepArrheniusModel.init [1] []).getArrhenius 0 = .error .exception) :=
  ⟨by simp [PDepArrheniusModel.init],
   Or.inl (by norm_num [PDepArrheniusModel.init, listMin]),
   C5_out_of_range_raises (PDepArrheniusModel.init [1] []) 300 0
     (by simp [PDepArrheniusModel.init])
     (Or.inl (by norm_num [PDepArrheniusModel.init, listMin]))⟩

/-- C6: for P equal to a stored pressure (with the parallel-lists
invariant), getRateConstant(T, P) is exactly the stored ArrheniusModel's
getRateConstant(T) — the entry at the first index where pressures equals
P — with no interpolation arithmetic applied. -/
theorem C6_exact_match (m : PDepArrheniusModel) (T P : ℝ)
    (hmem : P ∈ m.pressures)
    (hlen : m.pressures.length = m.arrhenius.length) :
    m.getRateConstant T P =
      .ok ((m.arrhenius.getD (m.pressures.indexOf P)
        (ArrheniusModel.init 0 0 0)).getRateConstant T) := by
  obtain ⟨hidx, hadj⟩ := getAdjacentExpressions_exact m P hmem hlen
  unfold PDepArrheniusModel.getRateConstant
  rw [hadj]
  simp only [bind, Except.bind]
  rw [List.getD_eq_getElem m.arrhenius _ hidx]
  simp

/-- Witness for C6: a model storing pressure 5 with one Arrhenius entry,
queried exactly at P = 5. -/
theorem C6_witness :
    (5 : ℝ) ∈ (PDepArrheniusModel.init [5] [ArrheniusModel.init 1 2 3]).pressures ∧
    (PDepArrheniusModel.init [5] [ArrheniusModel.init 1 2 3]).pressures.length =
      (PDepArrheniusModel.init [5] [ArrheniusModel.init 1 2 3]).arrhenius.length ∧
    (PDepArrheniusModel.init [5] [ArrheniusModel.init 1 2 3]).getRateConstant 300 5 =
      .ok (((PDepArrheniusModel.init [5] [ArrheniusModel.init 1 2 3]).arrhenius.getD
        ((PDepArrheniusModel.init [5] [ArrheniusModel.init 1 2 3]).pressures.indexOf 5)
        (ArrheniusModel.init 0 0 0)).getRateConstant 300) :=
  ⟨by simp [PDepArrheniusModel.init], by simp [PDepArrheniusModel.init],
   C6_exact_match (PDepArrheniusModel.init [5] [ArrheniusModel.init 1 2 3]) 300 5
     (by simp [PDepArrheniusModel.init]) (by simp [PDepArrheniusModel.init])⟩

/-! ## C1 -/

/-- Stored model at the lower pressure 1 Pa: k(T) = 1 for every T > 0. -/
noncomputable def aC1low : ArrheniusModel := ArrheniusModel.init 1 0 0

/-- Stored model at the upper pressure 100 Pa: k(T) = 100. -/
noncomputable def aC1high : ArrheniusModel := ArrheniusModel.init 100 0 0

/-- A two-pressure PDepArrheniusModel with ascending stored pressures. -/
noncomputable def mC1 : PDepArrheniusModel :=
  PDepArrheniusModel.init [1, 100] [aC1low, aC1high]

lemma mC1_adjacent_eval :
    mC1.getAdjacentExpressions 10 = .ok (1, 10, aC1low, aC1high) := by
  unfold PDepArrheniusModel.getAdjacentExpressions
  have hmin : pyMin mC1.pressures = .ok 1 := by
    show Except.ok _ = _
    norm_num [listMin]
  have hmax : pyMax mC1.pressures = .ok 100 := by
    show Except.ok _ = _
    norm_num [listMax]
  rw [hmin, hmax]
  simp only [bind, Except.bind]
  rw [if_neg (by norm_num)]
  rw [if_neg (show ¬((10:ℝ) ∈ mC1.pressures) by
    norm_num [mC1, PDepArrheniusModel.init])]
  have hp0 : pyIndex mC1.pressures 0 = .ok 1 := by
    simp [pyIndex, mC1, PDepArrheniusModel.init]
  rw [hp0]
  simp only [bind, Except.bind]
  have hscan : pdepScan 10 (mC1.pressures.drop 1) 1 0 1 none =
      (0, 1, some (1, 10)) := by
    show pdepScan 10 [100] 1 0 1 none = _
    unfold pdepScan
    rw [if_neg (by norm_num)]
    rw [if_pos (by norm_num)]
    rfl
  rw [hscan]
  simp [pyIndex, mC1, PDepArrheniusModel.init]

lemma aC1_rate_low : aC1low.getRateConstant 2 = 1 := by
  simp [ArrheniusModel.getRateConstant, aC1low, ArrheniusModel.init,
    Real.rpow_zero]

lemma aC1_rate_high : aC1high.getRateConstant 2 = 100 := by
  simp [ArrheniusModel.getRateConstant, aC1high, ArrheniusModel.init,
    Real.rpow_zero]

/-- C1 fails on the code: for the ascending stored pressures [1, 100] Pa
with constant stored rates klow = 1, khigh = 100 and query pressure
P = 10 (strictly inside the bracket, equal to no stored pressure), the
scan of __getAdjacentExpressions returns Phigh = P itself (line 471
assigns Phigh = P instead of the stored pressure), so getRateConstant
returns 10^(ln 100), whereas the claimed log-log interpolation between
the true bracket (Plow = 1, Phigh = 100) gives
10^(log10(10/1)/log10(100/1) * ln(100/1)) = 10^(ln(100)/2).  The second
conjunct shows the two values really differ.  This contradicts the
helper's own docstring ("the pressures that most closely bound the
specified pressure") and the class docstring's promise of interpolation
between the stored pressures. -/
theorem C1_interpolation_code_bug :
    mC1.getRateConstant 2 10 = .ok ((10 : ℝ) ^ Real.log 100) ∧
    mC1.getRateConstant 2 10 ≠
      .ok ((10 : ℝ) ^ (Real.logb 10 (10 / 1) / Real.logb 10 (100 / 1) *
        Real.log (aC1high.getRateConstant 2 / aC1low.getRateConstant 2))) := by
  have hb1 : Real.logb 10 10 = 1 := Real.logb_self_eq_one (by norm_num)
  have hmain : mC1.getRateConstant 2 10 = .ok ((10 : ℝ) ^ Real.log 100) := by
    unfold PDepArrheniusModel.getRateConstant
    rw [mC1_adjacent_eval]
    simp only [bind, Except.bind]
    rw [if_neg (by norm_num)]
    rw [aC1_rate_low, aC1_rate_high]
    norm_num [hb1]
  refine ⟨hmain, ?_⟩
  rw [hmain, aC1_rate_low, aC1_rate_high]
  have h2 : Real.logb 10 100 = 2 := by
    have : (100 : ℝ) = 10 ^ (2 : ℕ) := by norm_num
    rw [this, Real.logb, Real.log_pow]
    have h10 : Real.log 10 ≠ 0 :=
      Real.log_ne_zero_of_pos_of_ne_one (by norm_num) (by norm_num)
    field_simp
  have hlogpos : 0 < Real.log 100 := Real.log_pos (by norm_num)
  have hne : (10 : ℝ) ^ Real.log 100 ≠
      (10 : ℝ) ^ (Real.logb 10 (10 / 1) / Real.logb 10 (100 / 1) *
        Real.log ((100 : ℝ) / 1)) := by
    have hexp : Real.logb 10 ((10:ℝ) / 1) / Real.logb 10 ((100:ℝ) / 1) *
        Real.log ((100 : ℝ) / 1) = Real.log 100 / 2 := by
      norm_num [hb1, h2]
      ring
    rw [hexp]
    have hlt : Real.log 100 / 2 < Real.log 100 := by linarith
    exact ne_of_gt ((Real.rpow_lt_rpow_left_iff (by norm_num)).2 hlt)
  simp only [ne_eq, Except.ok.injEq]
  exact hne

/-! ## C4 -/

/-- A ChebyshevModel with valid bounds [1,2] K x [1,3] Pa and a single
coefficient (state as produced by a 1x1-degree fit). -/
noncomputable def mC4 : ChebyshevModel :=
  { base := KineticsModel.init 1 2 1 3 0 "",
    coeffs := fun _ _ => 1, degreeT := 1, degreeP := 1 }

lemma mC4_tred : mC4.getReducedTemperature 4 = 2 := by
  norm_num [ChebyshevModel.getReducedTemperature, mC4, KineticsModel.init]

/-- Counterexample to C4: mC4 has valid bounds and (T, P) = (4, 1) lies
outside the declared box (4 > Tmax = 2) with T > 0, P > 0, yet
getRateConstant(4, 1) does not return a number: it fails with a math
domain error, because the reduced temperature is 2 and
chebyshev(t, 2) evaluates math.acos(2). -/
theorem C4_counterexample :
    (0 < mC4.base.Tmin ∧ mC4.base.Tmin < mC4.base.Tmax ∧
      0 < mC4.base.Pmin ∧ mC4.base.Pmin < mC4.base.Pmax) ∧
    (0 : ℝ) < 4 ∧ (0 : ℝ) < 1 ∧
    ¬(mC4.base.Tmin ≤ 4 ∧ (4 : ℝ) ≤ mC4.base.Tmax) ∧
    mC4.getRateConstant 4 1 = .error .valueError := by
  refine ⟨by norm_num [mC4, KineticsModel.init], by norm_num, by norm_num,
    by norm_num [mC4, KineticsModel.init], ?_⟩
  unfold ChebyshevModel.getRateConstant
  have hacc : chebAccum mC4 (mC4.getReducedTemperature 4)
      (mC4.getReducedPressure 1) = .error .valueError := by
    unfold chebAccum
    rw [mC4_tred]
    have hdT : mC4.degreeT = 1 := rfl
    have hdP : mC4.degreeP = 1 := rfl
    have hr1 : List.range 1 = [0] := rfl
    rw [hdT, hdP, hr1, List.foldlM_cons, List.foldlM_cons]
    have hcheb : chebyshevT 0 2 = .error .valueError := by
      unfold chebyshevT pyAcos
      rw [if_neg (by norm_num)]
      rfl
    rw [hcheb]
    rfl
  dsimp only
  rw [hacc]
  rfl

/-- C4 (amended): the evaluator performs no explicit range check, but for
a model with valid bounds and at least one term in each direction, and a
query temperature T > 0 strictly outside [Tmin, Tmax] (with P > 0), the
reduced temperature falls outside [-1, 1] and getRateConstant fails with
a math domain error from arccos instead of returning a number.  (The
source uses cos(n*acos(x)), not a cosh-based extension.) -/
theorem C4_outside_box_raises (m : ChebyshevModel) (T P : ℝ)
    (hTmin : 0 < m.base.Tmin) (hTT : m.base.Tmin < m.base.Tmax)
    (hPmin : 0 < m.base.Pmin) (hPP : m.base.Pmin < m.base.Pmax)
    (hdT : 1 ≤ m.degreeT) (hdP : 1 ≤ m.degreeP)
    (hT : 0 < T) (hP : 0 < P)
    (hout : T < m.base.Tmin ∨ m.base.Tmax < T) :
    m.getRateConstant T P = .error .valueError := by
  have hTmax : 0 < m.base.Tmax := lt_trans hTmin hTT
  have hred : m.getReducedTemperature T < -1 ∨
      1 < m.getReducedTemperature T := by
    have hba : 1 / m.base.Tmax - 1 / m.base.Tmin < 0 := by
      have := one_div_lt_one_div_of_lt hTmin hTT
      linarith
    have h2T : (2 : ℝ) / T = 2 * (1 / T) := by ring
    rcases hout with h | h
    · left
      rw [ChebyshevModel.getReducedTemperature, div_lt_iff_of_neg hba]
      have h2 : 1 / m.base.Tmin < 1 / T := one_div_lt_one_div_of_lt hT h
      rw [h2T]
      linarith
    · right
      rw [ChebyshevModel.getReducedTemperature, lt_div_iff_of_neg hba]
      have h2 : 1 / T < 1 / m.base.Tmax := one_div_lt_one_div_of_lt hTmax h
      rw [h2T]
      linarith
  have hcheb : ∀ t : ℕ, chebyshevT t (m.getReducedTemperature T) =
      .error .valueError := by
    intro t
    unfold chebyshevT pyAcos
    rw [if_neg (by rcases hred with h | h <;> push_neg <;> intro h1 <;>
      [exact absurd h (not_lt.2 h1); linarith])]
    rfl
  obtain ⟨dT, hdTeq⟩ : ∃ k, m.degreeT = k + 1 :=
    ⟨m.degreeT - 1, (Nat.succ_pred_eq_of_pos hdT).symm⟩
  obtain ⟨dP, hdPeq⟩ : ∃ k, m.degreeP = k + 1 :=
    ⟨m.degreeP - 1, (Nat.succ_pred_eq_of_pos hdP).symm⟩
  unfold ChebyshevModel.getRateConstant
  have hacc : chebAccum m (m.getReducedTemperature T)
      (m.getReducedPressure P) = .error .valueError := by
    unfold chebAccum
    simp only [hdTeq, hdPeq, List.range_succ_eq_map, List.foldlM_cons,
      hcheb, bind, Except.bind]
  dsimp only
  rw [hacc]
  rfl

/-- Witness for C4's amended theorem at the concrete model mC4 and the
out-of-range temperature 4. -/
theorem C4_witness :
    ((0:ℝ) < mC4.base.Tmin ∧ mC4.base.Tmin < mC4.base.Tmax ∧
      (0:ℝ) < mC4.base.Pmin ∧ mC4.base.Pmin < mC4.base.Pmax ∧
      1 ≤ mC4.degreeT ∧ 1 ≤ mC4.degreeP ∧ (0:ℝ) < 4 ∧ (0:ℝ) < 2 ∧
      mC4.base.Tmax < 4) ∧
    mC4.getRateConstant 4 2 = .error .valueError :=
  ⟨⟨by norm_num [mC4, KineticsModel.init],
    by norm_num [mC4, KineticsModel.init],
    by norm_num [mC4, KineticsModel.init],
    by norm_num [mC4, KineticsModel.init],
    le_refl 1, le_refl 1, by norm_num, by norm_num,
    by norm_num [mC4, KineticsModel.init]⟩,
   C4_outside_box_raises mC4 4 2
     (by norm_num [mC4, KineticsModel.init])
     (by norm_num [mC4, KineticsModel.init])
     (by norm_num [mC4, KineticsModel.init])
     (by norm_num [mC4, KineticsModel.init])
     (le_refl 1) (le_refl 1) (by norm_num) (by norm_num)
     (Or.inr (by norm_num [mC4, KineticsModel.init]))⟩

/-! ## C2 -/

lemma arrhenius_fitToData_error_state
    (lstsq : List (ℝ × ℝ) → List ℝ → ℝ × ℝ) (m : ArrheniusModel)
    (Tlist K : List ℝ) (e : Err) (m' : ArrheniusModel)
    (h : ArrheniusModel.fitToData lstsq m Tlist K = .error (e, m')) :
    m' = m := by
  unfold ArrheniusModel.fitToData at h
  dsimp only at h
  split at h
  · exact absurd h (by simp)
  · rw [Except.error.injEq, Prod.mk.injEq] at h
    exact h.2.symm

lemma pdepFitLoop_error_state (lstsq : List (ℝ × ℝ) → List ℝ → ℝ × ℝ)
    (Tlist : List ℝ) (K : List (List ℝ)) :
    ∀ (Ps : List ℝ) (p : ℕ) (acc : PDepArrheniusModel) (e : Err)
      (m' : PDepArrheniusModel),
      pdepFitLoop lstsq Tlist K p Ps acc = .error (e, m') →
      m'.pressures = acc.pressures ∧ m'.base = acc.base := by
  intro Ps
  induction Ps with
  | nil =>
    intro p acc e m' h
    exact absurd h (by simp [pdepFitLoop])
  | cons P rest ih =>
    intro p acc e m' h
    unfold pdepFitLoop at h
    split at h
    · rw [Except.error.injEq, Prod.mk.injEq] at h
      rw [← h.2]
      exact ⟨rfl, rfl⟩
    · split at h
      · rw [Except.error.injEq, Prod.mk.injEq] at h
        rw [← h.2]
        exact ⟨rfl, rfl⟩
      · obtain ⟨h1, h2⟩ := ih (p + 1) _ e m' h
        exact ⟨h1, h2⟩

lemma pdepFitLoop_ok_state (lstsq : List (ℝ × ℝ) → List ℝ → ℝ × ℝ)
    (Tlist : List ℝ) (K : List (List ℝ)) :
    ∀ (Ps : List ℝ) (p : ℕ) (acc : PDepArrheniusModel)
      (m' : PDepArrheniusModel),
      pdepFitLoop lstsq Tlist K p Ps acc = .ok m' →
      m'.pressures = acc.pressures ∧ m'.base = acc.base ∧
      m'.arrhenius.length = acc.arrhenius.length + Ps.length := by
  intro Ps
  induction Ps with
  | nil =>
    intro p acc m' h
    simp only [pdepFitLoop, Except.ok.injEq] at h
    rw [← h]
    exact ⟨rfl, rfl, rfl⟩
  | cons P rest ih =>
    intro p acc m' h
    unfold pdepFitLoop at h
    split at h
    · exact absurd h (by simp)
    · split at h
      · exact absurd h (by simp)
      · obtain ⟨h1, h2, h3⟩ := ih (p + 1) _ m' h
        refine ⟨h1, h2, ?_⟩
        rw [h3]
        simp only [List.length_append, List.length_cons, List.length_nil]
        omega

/-- C2 (amended): ArrheniusModel.fitToData indeed mutates nothing on
failure — all assignments happen after the three fitting passes, so an
error leaves the model exactly as it was.  But
PDepArrheniusModel.fitToData overwrites self.arrhenius (to []) and
self.pressures (to a copy of Plist) before any fitting; on failure the
pressures list is therefore the new Plist, not the pre-call value (only
the inherited base fields are untouched), so the claim's "fields are
exactly what they were before the call" fails for PDepArrheniusModel. -/
theorem C2_fit_failure_mutation :
    (∀ (lstsq : List (ℝ × ℝ) → List ℝ → ℝ × ℝ) (m : ArrheniusModel)
      (Tlist K : List ℝ) (e : Err) (m' : ArrheniusModel),
      ArrheniusModel.fitToData lstsq m Tlist K = .error (e, m') →
      m' = m) ∧
    (∀ (lstsq : List (ℝ × ℝ) → List ℝ → ℝ × ℝ) (m : PDepArrheniusModel)
      (Tlist Plist : List ℝ) (K : List (List ℝ)) (e : Err)
      (m' : PDepArrheniusModel),
      PDepArrheniusModel.fitToData lstsq m Tlist Plist K = .error (e, m') →
      m'.pressures = Plist ∧ m'.base = m.base) := by
  refine ⟨arrhenius_fitToData_error_state, ?_⟩
  intro lstsq m Tlist Plist K e m' h
  unfold PDepArrheniusModel.fitToData at h
  exact pdepFitLoop_error_state lstsq Tlist K Plist 0 _ e m' h

/-- The external least-squares primitive instantiated trivially (its
value is irrelevant on runs that fail before reaching it). -/
noncomputable def lstsq0 : List (ℝ × ℝ) → List ℝ → ℝ × ℝ := fun _ _ => (0, 0)

/-- A PDepArrheniusModel holding previously fitted data: pressure 5 with
one Arrhenius entry. -/
noncomputable def mC2 : PDepArrheniusModel :=
  PDepArrheniusModel.init [5] [ArrheniusModel.init 2 3 4]

lemma arrC2_fit_eval :
    ArrheniusModel.fitToData lstsq0 (ArrheniusModel.init 0 0 0) [1] [-1] =
      .error (.valueError, ArrheniusModel.init 0 0 0) := by
  unfold ArrheniusModel.fitToData buildSystem
  have hg : pyIndex [(-1 : ℝ)] 0 = .ok (-1) := by
    simp [pyIndex]
  have hl : pyLog (-1) = .error .valueError := by
    unfold pyLog
    rw [if_neg (by norm_num)]
  simp only [bind, Except.bind, hg, hl]

lemma mC2_fit_eval :
    PDepArrheniusModel.fitToData lstsq0 mC2 [1] [2] [[-1]] =
      .error (.valueError,
        { mC2 with arrhenius := [], pressures := [2] }) := by
  unfold PDepArrheniusModel.fitToData pdepFitLoop
  have hcol : ([[(-1 : ℝ)]] : List (List ℝ)).mapM
      (fun row => pyIndex row 0) = .ok [-1] := rfl
  rw [hcol]
  dsimp only
  rw [arrC2_fit_eval]

/-- Counterexample to C2: fitting mC2 (stored pressures [5]) with the
malformed rate matrix [[-1]] (nonpositive rate coefficient) fails, but
after the failure the pressures field is [2] (the new Plist), not the
pre-call value [5]: the failure does not precede all mutation. -/
theorem C2_counterexample :
    PDepArrheniusModel.fitToData lstsq0 mC2 [1] [2] [[-1]] =
      .error (.valueError,
        { mC2 with arrhenius := [], pressures := [2] }) ∧
    ({ mC2 with arrhenius := [], pressures := [2] } :
      PDepArrheniusModel).pressures ≠ mC2.pressures :=
  ⟨mC2_fit_eval, by norm_num [mC2, PDepArrheniusModel.init]⟩

/-- Witness for C2's amended theorem: the ArrheniusModel part applied to
a failing fit (K shorter than Tlist), the PDepArrheniusModel part applied
to the failing fit of mC2. -/
theorem C2_witness :
    ((ArrheniusModel.init 0 0 0 : ArrheniusModel) =
      ArrheniusModel.init 0 0 0) ∧
    (({ mC2 with arrhenius := [], pressures := [2] } :
        PDepArrheniusModel).pressures = [2] ∧
      ({ mC2 with arrhenius := [], pressures := [2] } :
        PDepArrheniusModel).base = mC2.base) :=
  ⟨C2_fit_failure_mutation.1 lstsq0 (ArrheniusModel.init 0 0 0) [1] [-1]
      .valueError (ArrheniusModel.init 0 0 0) arrC2_fit_eval,
   C2_fit_failure_mutation.2 lstsq0 mC2 [1] [2] [[-1]] .valueError
      ({ mC2 with arrhenius := [], pressures := [2] }) mC2_fit_eval⟩

/-! ## C8 -/

lemma ok_bind {α β : Type} (a : α) (f : α → Except Err β) :
    (Except.ok a : Except Err α) >>= f = f a := rfl

lemma chebyshevT_ok {x : ℝ} (hx : -1 ≤ x ∧ x ≤ 1) (n : ℕ) :
    chebyshevT n x = .ok (Real.cos (n * Real.arccos x)) := by
  unfold chebyshevT pyAcos
  rw [if_pos hx]
  rfl

lemma list_range_map_sum (f : ℕ → ℝ) (n : ℕ) :
    ((List.range n).map f).sum = ∑ i in Finset.range n, f i := by
  induction n with
  | zero => simp
  | succ k ih =>
    rw [List.range_succ, List.map_append, List.sum_append,
      Finset.sum_range_succ, ih]
    simp

lemma foldl_ok_body (c : ℕ → ℝ) :
    ∀ (l : List ℕ) (k : ℝ),
      l.foldlM (fun (k : ℝ) (p : ℕ) =>
        (Except.ok (k + c p) : Except Err ℝ)) k =
      .ok (k + (l.map c).sum) := by
  intro l
  induction l with
  | nil =>
    intro k
    rw [List.foldlM_nil, List.map_nil, List.sum_nil, add_zero]
    rfl
  | cons p ps ih =>
    intro k
    rw [List.foldlM_cons, ok_bind, ih, List.map_cons, List.sum_cons]
    congr 1
    ring

lemma chebAccum_ok (m : ChebyshevModel) (x y : ℝ)
    (hx : -1 ≤ x ∧ x ≤ 1) (hy : -1 ≤ y ∧ y ≤ 1) :
    chebAccum m x y = .ok (∑ t in Finset.range m.degreeT,
      ∑ p in Finset.range m.degreeP,
        m.coeffs t p * Real.cos (t * Real.arccos x) *
          Real.cos (p * Real.arccos y)) := by
  unfold chebAccum
  simp only [chebyshevT_ok hx, chebyshevT_ok hy, ok_bind, foldl_ok_body]
  rw [zero_add]
  congr 1

lemma reducedTemperature_mem (m : ChebyshevModel) (T : ℝ)
    (hTmin : 0 < m.base.Tmin) (hTT : m.base.Tmin < m.base.Tmax)
    (h1 : m.base.Tmin ≤ T) (h2 : T ≤ m.base.Tmax) :
    -1 ≤ m.getReducedTemperature T ∧ m.getReducedTemperature T ≤ 1 := by
  have hT : 0 < T := lt_of_lt_of_le hTmin h1
  have hTmax : 0 < m.base.Tmax := lt_trans hTmin hTT
  have hba : 1 / m.base.Tmax - 1 / m.base.Tmin < 0 := by
    have := one_div_lt_one_div_of_lt hTmin hTT
    linarith
  have hl : 1 / m.base.Tmax ≤ 1 / T := one_div_le_one_div_of_le hT h2
  have hr : 1 / T ≤ 1 / m.base.Tmin := one_div_le_one_div_of_le hTmin h1
  have h2T : (2 : ℝ) / T = 2 * (1 / T) := by ring
  constructor
  · rw [ChebyshevModel.getReducedTemperature, le_div_iff_of_neg hba, h2T]
    linarith
  · rw [ChebyshevModel.getReducedTemperature, div_le_iff_of_neg hba, h2T]
    linarith

lemma reducedPressure_mem (m : ChebyshevModel) (P : ℝ)
    (hPmin : 0 < m.base.Pmin) (hPP : m.base.Pmin < m.base.Pmax)
    (h1 : m.base.Pmin ≤ P) (h2 : P ≤ m.base.Pmax) :
    -1 ≤ m.getReducedPressure P ∧ m.getReducedPressure P ≤ 1 := by
  have hP : 0 < P := lt_of_lt_of_le hPmin h1
  have hd : 0 < Real.log m.base.Pmax - Real.log m.base.Pmin := by
    have := Real.log_lt_log hPmin hPP
    linarith
  have hl : Real.log m.base.Pmin ≤ Real.log P := Real.log_le_log hPmin h1
  have hr : Real.log P ≤ Real.log m.base.Pmax := Real.log_le_log hP h2
  constructor
  · rw [ChebyshevModel.getReducedPressure, le_div_iff₀ hd]
    linarith
  · rw [ChebyshevModel.getReducedPressure, div_le_one hd]
    linarith

/-- C8: inside the declared box (with valid bounds), getRateConstant(T, P)
returns exactly 10 raised to the double Chebyshev sum
sum_t sum_p coeffs[t,p] * cos(t*arccos(Tred)) * cos(p*arccos(Pred)), with
Tred = (2/T - 1/Tmin - 1/Tmax)/(1/Tmax - 1/Tmin) and
Pred = (2 log P - log Pmin - log Pmax)/(log Pmax - log Pmin). -/
theorem C8_chebyshev_in_box (m : ChebyshevModel) (T P : ℝ)
    (hTmin : 0 < m.base.Tmin) (hTT : m.base.Tmin < m.base.Tmax)
    (hPmin : 0 < m.base.Pmin) (hPP : m.base.Pmin < m.base.Pmax)
    (hT1 : m.base.Tmin ≤ T) (hT2 : T ≤ m.base.Tmax)
    (hP1 : m.base.Pmin ≤ P) (hP2 : P ≤ m.base.Pmax) :
    m.getRateConstant T P = .ok ((10 : ℝ) ^
      ∑ t in Finset.range m.degreeT, ∑ p in Finset.range m.degreeP,
        m.coeffs t p *
        Real.cos (t * Real.arccos ((2 / T - 1 / m.base.Tmin -
          1 / m.base.Tmax) / (1 / m.base.Tmax - 1 / m.base.Tmin))) *
        Real.cos (p * Real.arccos ((2 * Real.log P -
          Real.log m.base.Pmin - Real.log m.base.Pmax) /
          (Real.log m.base.Pmax - Real.log m.base.Pmin)))) := by
  have hx := reducedTemperature_mem m T hTmin hTT hT1 hT2
  have hy := reducedPressure_mem m P hPmin hPP hP1 hP2
  unfold ChebyshevModel.getRateConstant
  dsimp only
  rw [chebAccum_ok m _ _ hx hy]
  rfl

/-- A concrete in-range Chebyshev model for the C8 witness. -/
noncomputable def mC8 : ChebyshevModel :=
  { base := KineticsModel.init 1 2 1 3 0 "",
    coeffs := fun _ _ => 1, degreeT := 1, degreeP := 1 }

/-- Witness for C8 at (T, P) = (1, 2) inside the box [1,2] x [1,3]. -/
theorem C8_witness :
    ((0 : ℝ) < mC8.base.Tmin ∧ mC8.base.Tmin < mC8.base.Tmax ∧
      (0 : ℝ) < mC8.base.Pmin ∧ mC8.base.Pmin < mC8.base.Pmax ∧
      mC8.base.Tmin ≤ 1 ∧ (1 : ℝ) ≤ mC8.base.Tmax ∧
      mC8.base.Pmin ≤ 2 ∧ (2 : ℝ) ≤ mC8.base.Pmax) ∧
    mC8.getRateConstant 1 2 = .ok ((10 : ℝ) ^
      ∑ t in Finset.range mC8.degreeT, ∑ p in Finset.range mC8.degreeP,
        mC8.coeffs t p *
        Real.cos (t * Real.arccos ((2 / 1 - 1 / mC8.base.Tmin -
          1 / mC8.base.Tmax) / (1 / mC8.base.Tmax - 1 / mC8.base.Tmin))) *
        Real.cos (p * Real.arccos ((2 * Real.log 2 -
          Real.log mC8.base.Pmin - Real.log mC8.base.Pmax) /
          (Real.log mC8.base.Pmax - Real.log mC8.base.Pmin)))) :=
  ⟨⟨by norm_num [mC8, KineticsModel.init],
    by norm_num [mC8, KineticsModel.init],
    by norm_num [mC8, KineticsModel.init],
    by norm_num [mC8, KineticsModel.init],
    by norm_num [mC8, KineticsModel.init],
    by norm_num [mC8, KineticsModel.init],
    by norm_num [mC8, KineticsModel.init],
    by norm_num [mC8, KineticsModel.init]⟩,
   C8_chebyshev_in_box mC8 1 2
     (by norm_num [mC8, KineticsModel.init])
     (by norm_num [mC8, KineticsModel.init])
     (by norm_num [mC8, KineticsModel.init])
     (by norm_num [mC8, KineticsModel.init])
     (by norm_num [mC8, KineticsModel.init])
     (by norm_num [mC8, KineticsModel.init])
     (by norm_num [mC8, KineticsModel.init])
     (by norm_num [mC8, KineticsModel.init])⟩

/-! ## C9 -/

lemma pyMin_ok {l : List ℝ} {v : ℝ} (h : pyMin l = .ok v) :
    v ∈ l ∧ ∀ x ∈ l, v ≤ x := by
  cases l with
  | nil => exact absurd h (by simp [pyMin])
  | cons a as =>
    simp only [pyMin, Except.ok.injEq] at h
    subst h
    exact ⟨listMin_mem (by simp), fun x hx => listMin_le hx⟩

lemma pyMax_ok {l : List ℝ} {v : ℝ} (h : pyMax l = .ok v) :
    v ∈ l ∧ ∀ x ∈ l, x ≤ v := by
  cases l with
  | nil => exact absurd h (by simp [pyMax])
  | cons a as =>
    simp only [pyMax, Except.ok.injEq] at h
    subst h
    exact ⟨listMax_mem (by simp), fun x hx => le_listMax hx⟩

/-- C9: a successful ChebyshevModel.fitToData sets Tmin/Tmax to exactly
the minimum/maximum of Tlist and Pmin/Pmax to exactly the
minimum/maximum of Plist; a successful PDepArrheniusModel.fitToData sets
pressures to exactly Plist in the order given, with one fitted
ArrheniusModel per pressure. -/
theorem C9_fit_sets_ranges :
    (∀ (lstsq : List (List ℝ) → List ℝ → List ℝ) (m : ChebyshevModel)
      (Tlist Plist : List ℝ) (K : List (List ℝ)) (dT dP : ℕ)
      (m' : ChebyshevModel),
      ChebyshevModel.fitToData lstsq m Tlist Plist K dT dP = .ok m' →
      (m'.base.Tmin ∈ Tlist ∧ ∀ x ∈ Tlist, m'.base.Tmin ≤ x) ∧
      (m'.base.Tmax ∈ Tlist ∧ ∀ x ∈ Tlist, x ≤ m'.base.Tmax) ∧
      (m'.base.Pmin ∈ Plist ∧ ∀ x ∈ Plist, m'.base.Pmin ≤ x) ∧
      (m'.base.Pmax ∈ Plist ∧ ∀ x ∈ Plist, x ≤ m'.base.Pmax)) ∧
    (∀ (lstsq : List (ℝ × ℝ) → List ℝ → ℝ × ℝ) (m : PDepArrheniusModel)
      (Tlist Plist : List ℝ) (K : List (List ℝ))
      (m' : PDepArrheniusModel),
      PDepArrheniusModel.fitToData lstsq m Tlist Plist K = .ok m' →
      m'.pressures = Plist ∧ m'.arrhenius.length = Plist.length) := by
  constructor
  · intro lstsq m Tlist Plist K dT dP m' h
    unfold ChebyshevModel.fitToData at h
    dsimp only at h
    split at h
    · exact absurd h (by simp)
    · exact absurd h (by simp)
    · rename_i tmin tmax htmin htmax
      split at h
      · exact absurd h (by simp)
      · exact absurd h (by simp)
      · rename_i pmin pmax hpmin hpmax
        split at h
        · exact absurd h (by simp)
        · rw [Except.ok.injEq] at h
          subst h
          obtain ⟨ht1, ht2⟩ := pyMin_ok htmin
          obtain ⟨ht3, ht4⟩ := pyMax_ok htmax
          obtain ⟨hp1, hp2⟩ := pyMin_ok hpmin
          obtain ⟨hp3, hp4⟩ := pyMax_ok hpmax
          exact ⟨⟨ht1, ht2⟩, ⟨ht3, ht4⟩, ⟨hp1, hp2⟩, ⟨hp3, hp4⟩⟩
  · intro lstsq m Tlist Plist K m' h
    unfold PDepArrheniusModel.fitToData at h
    obtain ⟨h1, _h2, h3⟩ :=
      pdepFitLoop_ok_state lstsq Tlist K Plist 0 _ m' h
    refine ⟨h1, ?_⟩
    rw [h3]
    simp

/-- The external least-squares primitive for the joint Chebyshev solve,
instantiated trivially for the witness run. -/
noncomputable def lstsqC : List (List ℝ) → List ℝ → List ℝ :=
  fun _ _ => [0]

/-- Freshly constructed ChebyshevModel, as Python's ChebyshevModel(). -/
noncomputable def mC9cheb : ChebyshevModel :=
  ChebyshevModel.init 0 0 0 0 (fun _ _ => 0)

/-- The state produced by the witness fit of mC9cheb. -/
noncomputable def mC9chebFit : ChebyshevModel :=
  { base := { KineticsModel.init 0 0 0 0 0 "" with
      Tmin := 1, Tmax := 2, Pmin := 1, Pmax := Real.exp 1 },
    coeffs := fun t2 p2 => ([(0 : ℝ)]).getD (p2 * 1 + t2) 0,
    degreeT := 1, degreeP := 1 }

lemma mC9cheb_fit_eval :
    ChebyshevModel.fitToData lstsqC mC9cheb [1, 2] [1, Real.exp 1]
      [[1, 1], [1, 1]] 1 1 = .ok mC9chebFit := by
  have h1e : (1 : ℝ) ≤ Real.exp 1 := by
    have := Real.add_one_le_exp (1 : ℝ)
    linarith
  unfold ChebyshevModel.fitToData
  norm_num [pyMin, pyMax, listMin, listMax, min_def, max_def, h1e,
    chebGrid, chebCells, chebRow, chebyshevT, pyAcos, pyIndex, pyLog10,
    ChebyshevModel.getReducedTemperature, ChebyshevModel.getReducedPressure,
    mC9cheb, mC9chebFit, ChebyshevModel.init, KineticsModel.init,
    Real.log_one, Real.log_exp, bind, Except.bind, lstsqC,
    List.range_succ, List.mapM.loop, List.flatten, pure, Except.pure]

/-- Freshly constructed PDepArrheniusModel, as Python's
PDepArrheniusModel(). -/
noncomputable def mC9pdep : PDepArrheniusModel :=
  PDepArrheniusModel.init [] []

/-- The ArrheniusModel produced by the witness fit at the single
pressure. -/
noncomputable def aC9fit : ArrheniusModel :=
  { ArrheniusModel.init 0 0 0 with A := 1, n := 0, Ea := 0 }

lemma arrC9_fit_eval :
    ArrheniusModel.fitToData lstsq0 (ArrheniusModel.init 0 0 0) [1] [1] =
      .ok aC9fit := by
  unfold ArrheniusModel.fitToData
  norm_num [buildSystem, residualK1, pyIndex, pyLog, lstsq0, aC9fit,
    List.getLast?, Real.exp_zero, bind, Except.bind]

lemma mC9pdep_fit_eval :
    PDepArrheniusModel.fitToData lstsq0 mC9pdep [1] [3] [[1]] =
      .ok { mC9pdep with pressures := [3], arrhenius := [aC9fit] } := by
  unfold PDepArrheniusModel.fitToData pdepFitLoop
  rw [show (List.mapM (fun row => pyIndex row 0) [[(1 : ℝ)]]) =
    Except.ok [1] from rfl]
  dsimp only
  rw [arrC9_fit_eval]
  dsimp only
  unfold pdepFitLoop
  rfl

/-- Witness for C9: both fit procedures applied to concrete successful
runs. -/
theorem C9_witness :
    ((mC9chebFit.base.Tmin ∈ ([1, 2] : List ℝ) ∧
        ∀ x ∈ ([1, 2] : List ℝ), mC9chebFit.base.Tmin ≤ x) ∧
      (mC9chebFit.base.Tmax ∈ ([1, 2] : List ℝ) ∧
        ∀ x ∈ ([1, 2] : List ℝ), x ≤ mC9chebFit.base.Tmax) ∧
      (mC9chebFit.base.Pmin ∈ ([1, Real.exp 1] : List ℝ) ∧
        ∀ x ∈ ([1, Real.exp 1] : List ℝ), mC9chebFit.base.Pmin ≤ x) ∧
      (mC9chebFit.base.Pmax ∈ ([1, Real.exp 1] : List ℝ) ∧
        ∀ x ∈ ([1, Real.exp 1] : List ℝ), x ≤ mC9chebFit.base.Pmax)) ∧
    (({ mC9pdep with pressures := [3], arrhenius := [aC9fit] } :
        PDepArrheniusModel).pressures = [3] ∧
      ({ mC9pdep with pressures := [3], arrhenius := [aC9fit] } :
        PDepArrheniusModel).arrhenius.length = ([3] : List ℝ).length) :=
  ⟨C9_fit_sets_ranges.1 lstsqC mC9cheb [1, 2] [1, Real.exp 1]
      [[1, 1], [1, 1]] 1 1 mC9chebFit mC9cheb_fit_eval,
   C9_fit_sets_ranges.2 lstsq0 mC9pdep [1] [3] [[1]]
      ({ mC9pdep with pressures := [3], arrhenius := [aC9fit] })
      mC9pdep_fit_eval⟩

end RMG
